import Mathlib

/-!
# go-base: shallow embedding and verification

This file embeds, in Lean, the task-lifecycle runtime of the `base` Go
package (`Task`, its per-trigger-type loop, the global reload/retire
orchestrator, the liveness watchdog) and the `randid` identifier codec,
and proves the stated properties of the specification against them.

The embedding is sequential: Go goroutine interleavings are modelled as
explicit state-passing (each claim's model notes which interleaving it
captures), machine integers as `Nat`/`Int`, fallible calls as `Option`.
-/

namespace GoBase

/-- Trigger types of a task, one per constant `taskTypeOnetime`,
`taskTypeOnTCP`, `taskTypeOnReload`, `taskTypeOnChannel`,
`taskTypeOnInterval`, `taskTypeOnFsChange`, `taskTypeManual` in the source. -/
inductive TaskType where
  | onetime
  | onTCP
  | onReload
  | onChannel
  | onInterval
  | onFsChange
  | manual
deriving DecidableEq

/-- Errors returned by the runtime's entry points.  The Go code builds them
with `fmt.Errorf`; only their identity matters here, so payloads such as the
task id are dropped. -/
inductive Err where
  /-- `"Stop task timeout, task id: %v, reason: %v"` from `Task.stop`. -/
  | stopTimeout
  /-- `"Task to fire has already died"` from `Task.Fire`. -/
  | fireDied
  /-- `"This task has already died"` from `Task.start`. -/
  | startDied
  /-- An error produced by a behavior's `Schedule`/`Reload`/`Retire`. -/
  | taskerErr (code : Nat)
deriving DecidableEq

/-! ## Task lifecycle state (`Task.Stop` / `Task.Died`)

`Task.Stop` runs `Task.stop` under `t.onceStop.Do`; `stop` deregisters the
task's reload/retire callbacks, creates the 3-second retire context
(assigning `t.retire`/`t.retired`, the only assignment of these fields),
cancels the life context with `t.die()`, registers deferred type-specific
teardown, and blocks on `<-t.retire.Done()`.  The loop goroutine, on seeing
the life context done, runs the behavior's `Retire` once, calls
`t.retired()` and returns.  `Task.Died` reports whether the life context is
done. -/

/-- State of one `Task` as far as `Stop`/`Died` are concerned.  The
behavior's `Retire` invocations are counted so that re-running retire is
observable. -/
structure TaskState where
  taskType : TaskType
  /-- Life context has been cancelled (`t.die()` was called). -/
  lifeCancelled : Bool
  /-- `t.onceStop` has been consumed. -/
  onceStopUsed : Bool
  /-- `t.retire` / `t.retired` have been assigned (only `stop` assigns them). -/
  retireAssigned : Bool
  /-- The loop goroutine of `Task.routine` is running. -/
  routineRunning : Bool
  /-- Number of invocations of the behavior's `Retire`. -/
  retireCalls : Nat
  /-- This task's function is registered in the orchestrator's `retireFuncs`. -/
  retireRegistered : Bool
  /-- This task's function is registered in the orchestrator's `reloadFuncs`. -/
  reloadRegistered : Bool
  /-- Interval tasks: `tb.Argument.(bool)`, liveness tracking enabled. -/
  liverTracked : Bool
  /-- This task currently has an entry in the liveness registry. -/
  liverRegistered : Bool
deriving DecidableEq

/-- `Task.Died`: the life context is done. -/
def TaskState.died (t : TaskState) : Bool :=
  t.lifeCancelled

/-- Body of `Task.stop`, together with the loop goroutine's reaction to the
life cancellation.  If the loop goroutine is running it observes
`<-t.life.Done()`, runs the behavior's `Retire` once, calls `t.retired()`
(completing the retire wait within the bound) and exits; if no loop
goroutine is running, nothing completes the wait and the 3-second context
expires, which `stop` surfaces as a timeout error. -/
def TaskState.stopBody (t : TaskState) : TaskState × Option Err :=
  -- RetireCancel(t.id); ReloadCancel(t.id)
  let t := { t with retireRegistered := false, reloadRegistered := false }
  -- t.retire, t.retired = context.WithTimeout(context.Background(), 3*time.Second)
  let t := { t with retireAssigned := true }
  -- t.die()
  let t := { t with lifeCancelled := true }
  -- the loop goroutine's life-done branch: Tasker.Retire once, t.retired()
  let completed := t.routineRunning
  let t :=
    if t.routineRunning then
      { t with retireCalls := t.retireCalls + 1, routineRunning := false }
    else t
  -- deferred teardown (runs as stop returns)
  let t :=
    if t.taskType = TaskType.onInterval && t.liverTracked then
      { t with liverRegistered := false }
    else t
  (t, if completed then none else some Err.stopTimeout)

/-- `Task.Stop`: runs `stop` at most once via `t.onceStop.Do`; a later call
leaves the named return `err` at its zero value `nil`. -/
def TaskState.stop (t : TaskState) : TaskState × Option Err :=
  if t.onceStopUsed then (t, none)
  else TaskState.stopBody { t with onceStopUsed := true }

/-! ## Interval trigger setup (`Task.routine`, `taskTypeOnInterval` branch)

Each loop iteration of an interval task derives the nap context and
performs a liveness-registry action before the nap/life select. -/

/-- Kind of nap context derived for the iteration. -/
inductive NapCtx where
  /-- `context.WithCancel(context.Background())`: cancellable, no deadline. -/
  | cancellable
  /-- `context.WithTimeout(context.Background(), d)`: expires after `d`. -/
  | withTimeout (d : Nat)
deriving DecidableEq

/-- Liveness-registry action taken while deriving the nap context. -/
inductive LiverAct where
  /-- `LiverCancel(t.id)`. -/
  | cancel
  /-- `LiverRegister(t.id, d)`. -/
  | register (d : Nat)
  /-- No liveness-registry call. -/
  | noop
deriving DecidableEq

/-- Setup of one loop iteration of a `taskTypeOnInterval` task: `sleep` is
`tb.Sleep`, `liverTracked` is `tb.Argument.(bool)`, `d` is
`tb.Trigger.(time.Duration)` (an integer number of nanoseconds, kept as
`Nat`). -/
def intervalIterSetup (sleep liverTracked : Bool) (d : Nat) : NapCtx × LiverAct :=
  if sleep then
    (NapCtx.cancellable, LiverAct.cancel)
  else
    (NapCtx.withTimeout d,
      if liverTracked then LiverAct.register (d * 4) else LiverAct.noop)

/-! ## Liveness watchdog (`liver`)

The registry `liver.data` maps keys to `live{last, timeout}` records;
`liver.Schedule` is invoked each cycle of the watchdog's own interval task
and ranges over the registry, taking the fatal path (log the entry, then
`Fatal`, which aborts the process) at the first entry whose elapsed time
since `last` exceeds `timeout`.  Times are modelled as integers (Go
`time.Time`/`time.Duration` arithmetic on nanoseconds).  The alive-file
touch done after the scan is filesystem I/O and is outside the model. -/

/-- Record `live{last, timeout}` of the liveness registry. -/
structure Live where
  last : Int
  timeout : Int
deriving DecidableEq

/-- Expiry test of `liver.Schedule`: `lc.timeout < now.Sub(lc.last)`. -/
def liverExpired (now : Int) (lc : Live) : Bool :=
  lc.timeout < now - lc.last

/-- Scan of `liver.Schedule` at time `now`: the first expired entry, if
any, is the one whose state is logged before the fatal abort; `none` means
the scan completes without taking the fatal path. -/
def liverScan (data : List (String × Live)) (now : Int) : Option (String × Live) :=
  data.find? (fun kv => liverExpired now kv.2)

/-- `liver.Register(key, timeout)` at time `now`: `sync.Map.Store`
overwrites any previous entry for `key` with `live{last: now, timeout}`. -/
def liverRegister (data : List (String × Live)) (key : String) (timeout : Int)
    (now : Int) : List (String × Live) :=
  (key, { last := now, timeout := timeout }) :: data.filter (fun kv => !(kv.1 == key))

/-- `liver.Cancel(key)`: `sync.Map.LoadAndDelete` removes the entry. -/
def liverCancel (data : List (String × Live)) (key : String) : List (String × Live) :=
  data.filter (fun kv => !(kv.1 == key))

/-! ## Observable steps of `Task.stop`

For the ordering stated by the spec, `Task.stop` is rendered as the list of
its observable steps in execution order.  Note that in the source the
type-specific teardown (`Listener.Close`, `Watcher.Close`, `LiverCancel`)
is registered with `defer` inside the `switch`, so it executes when `stop`
returns, after `<-t.retire.Done()` has been satisfied. -/

/-- One observable step of `Task.stop`. -/
inductive StopEvent where
  /-- `RetireCancel(t.id)`. -/
  | retireCancel
  /-- `ReloadCancel(t.id)`. -/
  | reloadCancel
  /-- `t.retire, t.retired = context.WithTimeout(context.Background(), 3*time.Second)`. -/
  | openRetireCtx
  /-- `t.die()`. -/
  | cancelLife
  /-- `<-t.retire.Done()`; `timedOut` records whether the 3-second bound expired. -/
  | retireWait (timedOut : Bool)
  /-- `tb.Trigger.(net.Listener).Close()`. -/
  | closeListener
  /-- `tb.Trigger.(*fsnotify.Watcher).Close()`. -/
  | closeWatcher
  /-- `LiverCancel(t.id)`. -/
  | liverCancel
deriving DecidableEq

/-- Type-specific teardown steps of the `switch` in `Task.stop`. -/
def teardownEvents : TaskType → Bool → List StopEvent
  | TaskType.onTCP, _ => [StopEvent.closeListener]
  | TaskType.onInterval, liverTracked =>
      if liverTracked then [StopEvent.liverCancel] else []
  | TaskType.onFsChange, _ => [StopEvent.closeWatcher]
  | _, _ => []

/-- Predicate for the teardown steps. -/
def StopEvent.isTeardown : StopEvent → Bool
  | StopEvent.closeListener => true
  | StopEvent.closeWatcher => true
  | StopEvent.liverCancel => true
  | _ => false

/-- Observable steps of `Task.stop` for a task of type `tt`, in execution
order: deregistration, opening the retire context, cancelling life, the
blocking wait, and only then the deferred teardown. -/
def stopTrace (tt : TaskType) (liverTracked timedOut : Bool) : List StopEvent :=
  [StopEvent.retireCancel, StopEvent.reloadCancel, StopEvent.openRetireCtx,
    StopEvent.cancelLife, StopEvent.retireWait timedOut]
    ++ teardownEvents tt liverTracked

/-- Return value of `Task.stop`: `context.Canceled` is mapped to `nil`,
`context.DeadlineExceeded` is wrapped in the `"Stop task timeout"` error. -/
def stopReturn (timedOut : Bool) : Option Err :=
  if timedOut then some Err.stopTimeout else none

/-- Modelled from the claim's words (for comparison with `stopTrace`): Stop
deregisters the callbacks, opens the retire-wait context and cancels the
lifetime context, then performs the type-specific teardown, and then blocks
until retire completes or the bound expires. -/
def stopTraceClaimed (tt : TaskType) (liverTracked timedOut : Bool) : List StopEvent :=
  [StopEvent.retireCancel, StopEvent.reloadCancel, StopEvent.openRetireCtx,
    StopEvent.cancelLife]
    ++ teardownEvents tt liverTracked
    ++ [StopEvent.retireWait timedOut]

/-! ## Manual tasks (`Task.start`, `taskTypeManual` branch, and `Task.Fire`)

For `taskTypeManual`, `Task.start` returns inside the `switch`: it calls
the behavior's `Schedule` synchronously exactly when `tb.Immediately` is
set, and in either case returns before `go t.routine()` — no loop goroutine
is ever spawned for a manual task, so nothing else invokes `Schedule` until
`Fire()`.  `Task.Fire` first checks `Died()` and errors without touching
the behavior; on a live manual task it calls `Schedule(t.life)`
synchronously and returns its error. -/

/-- State of a manual task relevant to `Fire`. -/
structure ManualTask where
  /-- Life context cancelled (`Died()` is true). -/
  lifeCancelled : Bool
  /-- Number of invocations of the behavior's `Schedule`. -/
  scheduleCalls : Nat
  /-- A loop goroutine exists (never, for manual tasks). -/
  routineRunning : Bool
deriving DecidableEq

/-- `Task.start` for a manual task.  `schedErr` is the error the behavior's
`Schedule` would return if invoked. -/
def manualStart (immediately : Bool) (schedErr : Option Err) : ManualTask × Option Err :=
  if immediately then
    ({ lifeCancelled := false, scheduleCalls := 1, routineRunning := false }, schedErr)
  else
    ({ lifeCancelled := false, scheduleCalls := 0, routineRunning := false }, none)

/-- `Task.Fire` on a manual task. -/
def manualFire (t : ManualTask) (schedErr : Option Err) : ManualTask × Option Err :=
  if t.lifeCancelled then (t, some Err.fireDied)
  else ({ t with scheduleCalls := t.scheduleCalls + 1 }, schedErr)

/-! ## Construction (`newTask` and the seven constructors)

All seven `NewTask*` constructors build a `TaskBase` and call `newTask`,
which creates the life context, calls `t.Reload()` (running the behavior's
`Reload` synchronously under the per-task lock), and on a reload error
calls `Log.Fatal` — logrus `Fatal` runs the registered exit handler and
terminates the process, so `t.Start()` is never reached.  On success it
returns `t, t.Start()`. -/

/-- One observable step of construction. -/
inductive ConsEvent where
  /-- The behavior's `Reload` is invoked (from `t.Reload()` in `newTask`). -/
  | reloadCall
  /-- `Log.Fatal`: the process aborts, construction does not proceed. -/
  | fatalAbort
  /-- The behavior's `Schedule` is invoked synchronously by `t.start`. -/
  | scheduleCall
  /-- `t.die()`. -/
  | dieCall
  /-- `net.Listen` (TCP) with outcome `ok`. -/
  | bindListener (ok : Bool)
  /-- `fsnotify.NewWatcher` plus `Watcher.Add` with combined outcome `ok`. -/
  | openWatcher (ok : Bool)
  /-- `go t.routine()`: the loop goroutine is spawned. -/
  | spawnRoutine
  /-- `RetireRegister(t.Stop, t.id); ReloadRegister(t.Reload, t.id)`. -/
  | registerFuncs
deriving DecidableEq

/-- Observable steps of `Task.start` for a fresh task of type `tt`:
`immediately`/`sleep` are the `TaskBase` flags, `resourceOk` is whether the
type-specific resource acquisition (bind listener / open watcher) succeeds. -/
def startTrace (tt : TaskType) (immediately sleep resourceOk : Bool) : List ConsEvent :=
  let runPart :=
    (if immediately && !sleep then [ConsEvent.scheduleCall] else [])
      ++ [ConsEvent.spawnRoutine, ConsEvent.registerFuncs]
  match tt with
  | TaskType.manual =>
      if immediately then [ConsEvent.scheduleCall] else []
  | TaskType.onetime =>
      [ConsEvent.scheduleCall, ConsEvent.dieCall]
  | TaskType.onTCP =>
      if resourceOk then ConsEvent.bindListener true :: runPart
      else [ConsEvent.bindListener false, ConsEvent.dieCall]
  | TaskType.onFsChange =>
      if resourceOk then ConsEvent.openWatcher true :: runPart
      else [ConsEvent.openWatcher false, ConsEvent.dieCall]
  | _ => runPart

/-- Observable steps of `newTask` (shared by all seven constructors):
`reloadFails` is whether the behavior's `Reload` returns an error at
construction time. -/
def newTaskTrace (tt : TaskType) (immediately sleep resourceOk reloadFails : Bool) :
    List ConsEvent :=
  ConsEvent.reloadCall ::
    (if reloadFails then [ConsEvent.fatalAbort]
     else startTrace tt immediately sleep resourceOk)

/-! ## Global reload/retire batch (`groupRun`)

`groupRun` ranges over a registry of callbacks, launches every one in its
own goroutine with a completion flag initialised to `false`, logs any
callback error as a warning (without affecting the others), and waits on a
shared timeout context that a `wg.Wait` goroutine cancels once all
callbacks are done.  If the context's error is not `context.Canceled`
(i.e. the shared timeout elapsed first), it logs the completion flag of
every callback and calls `logrus.Panic`, aborting the process; `groupRun`
has no error return value at all.  `Reload` and `Retire` both call it with
a 10-second timeout. -/

/-- Outcome of one registered callback, relative to the shared timeout:
it either finishes in time (returning `nil` or an error) or is still
running when the timeout elapses. -/
inductive CbOutcome where
  | ok
  | fails
  | hangs
deriving DecidableEq

/-- Whether a callback finishes within the shared timeout. -/
def CbOutcome.finishes : CbOutcome → Bool
  | CbOutcome.hangs => false
  | _ => true

/-- Observable result of one `groupRun` batch. -/
structure GroupRunOut where
  /-- Keys of the callbacks launched (every registered one). -/
  launched : List String
  /-- Keys whose error was logged as a warning. -/
  warned : List String
  /-- Final `functionStatus` completion flag of every callback. -/
  statuses : List (String × Bool)
  /-- The shared timeout elapsed first: statuses are logged and
  `logrus.Panic` aborts the process. -/
  hung : Bool
deriving DecidableEq

/-- `groupRun` over the registered callbacks `fns` with the shared timeout
(relative to which `CbOutcome.hangs` is judged). -/
def groupRun (fns : List (String × CbOutcome)) (_timeoutSeconds : Nat) : GroupRunOut :=
  { launched := fns.map Prod.fst
    warned := (fns.filter (fun kv => kv.2 == CbOutcome.fails)).map Prod.fst
    statuses := fns.map (fun kv => (kv.1, kv.2.finishes))
    hung := fns.any (fun kv => kv.2 == CbOutcome.hangs) }

/-- The shared batch timeout used by both `Reload` and `Retire`:
`groupRun(&reloadFuncs, 10*time.Second)` / `groupRun(&retireFuncs, 10*time.Second)`. -/
def globalBatchTimeoutSeconds : Nat := 10

/-- The batch run by the global `Reload` over the reload registry. -/
def globalReloadBatch (fns : List (String × CbOutcome)) : GroupRunOut :=
  groupRun fns globalBatchTimeoutSeconds

/-! ## Channel-driven tasks (`Task.routine`, `taskTypeOnChannel` branch)

Each loop iteration spawns a helper goroutine blocked on a receive from
`tb.Trigger`.  A delivered value is stored in `tb.Argument` and the nap
context is cancelled, so the select dispatches `Schedule(t.life)` with that
argument and the loop re-enters; channel closure (`ok == false`) instead
calls `t.die()` without cancelling nap, so the select takes the life-done
branch: the behavior's `Retire` runs and the loop invokes `t.retired()` —
a field assigned only inside `Task.stop`, hence a nil function value (a Go
runtime panic when called) on any path where `Stop()` never ran.

The model runs the loop against a queue of values yet to be delivered,
followed (or not) by closure; each `chanStep` is one loop iteration of the
single interleaving in which the helper goroutine's receive completes
before the select is decided. -/

/-- State of a running channel-driven task. -/
structure ChanRun (α : Type) where
  /-- Values yet to be delivered on the trigger channel. -/
  pending : List α
  /-- The channel is closed once `pending` is exhausted. -/
  chanClosed : Bool
  /-- `tb.Argument`. -/
  argument : Option α
  /-- Life context cancelled. -/
  lifeCancelled : Bool
  /-- Arguments with which the behavior's `Schedule` was invoked, in order. -/
  schedArgs : List α
  /-- Number of invocations of the behavior's `Retire`. -/
  retireCalls : Nat
  /-- `t.retired` is a non-nil function (assigned only inside `Task.stop`). -/
  retiredAssigned : Bool
  /-- The loop invoked a nil `t.retired` — a Go runtime panic. -/
  nilCallFault : Bool
  /-- The loop goroutine returned. -/
  exited : Bool
deriving DecidableEq

/-- One loop iteration of `Task.routine` for a channel-driven task. -/
def chanStep {α : Type} (s : ChanRun α) : ChanRun α :=
  if s.exited then s
  else
    match s.pending with
    | v :: rest =>
        -- receive delivers `v`: `tb.Argument = val.Interface()`, then the
        -- deferred `cancel()` fires; the select takes the nap branch and
        -- `Schedule(t.life)` runs with that argument
        { s with pending := rest, argument := some v, schedArgs := s.schedArgs ++ [v] }
    | [] =>
        if s.chanClosed then
          -- receive reports `ok == false`: `t.die()`; the select takes the
          -- life-done branch: `Tasker.Retire(context.TODO())`, then `t.retired()`
          { s with
              lifeCancelled := true
              retireCalls := s.retireCalls + 1
              nilCallFault := !s.retiredAssigned
              exited := true }
        else s -- the receive stays blocked: no observable change

/-- Iterated loop of a channel-driven task. -/
def chanRun {α : Type} (s : ChanRun α) : Nat → ChanRun α
  | 0 => s
  | n + 1 => chanRun (chanStep s) n

/-- Initial state of a channel-driven task whose channel will deliver
`vals` and then close iff `closed` (no `Stop()` in the run, so `t.retired`
is unassigned). -/
def chanInit {α : Type} (vals : List α) (closed : Bool) : ChanRun α :=
  { pending := vals
    chanClosed := closed
    argument := none
    lifeCancelled := false
    schedArgs := []
    retireCalls := 0
    retiredAssigned := false
    nilCallFault := false
    exited := false }

/-! ## The `randid` identifier codec

`randid.New` assembles a 12-byte plaintext — 6 marker bytes (pid and IP),
the low 3 little-endian bytes of the encode-time Unix seconds, and the low
3 little-endian bytes of the incremented sequence — scrambles it with a
byte-swap/XOR loop, and base64-URL-encodes it into a 16-character id.
`randid.Decode` reverses the base64 step and the loop, zeroes plain byte 9
(the low sequence byte), and reads the IP from bytes 2–5 and a 32-bit
timestamp whose low 24 bits come from the id and whose bits 24–31 are
borrowed from the decode-time clock.  Bytes are `Nat` values below 256. -/

/-- Byte at offset `i` of a byte slice (Go slice indexing). -/
def byteAt (s : List Nat) (i : Nat) : Nat := s.getD i 0

/-- One iteration of the loop of `randid.New`:
`src[i*2], src[6+i] = src[6+i], src[i*2]` then `src[i*2] = src[i*2] ^ src[9]`. -/
def scrambleStep (s : List Nat) (i : Nat) : List Nat :=
  let s := (s.set (i * 2) (byteAt s (6 + i))).set (6 + i) (byteAt s (i * 2))
  s.set (i * 2) (byteAt s (i * 2) ^^^ byteAt s 9)

/-- The loop of `randid.New`: `for i := 0; i < 6; i++`. -/
def encodeScramble (s : List Nat) : List Nat :=
  [0, 1, 2, 3, 4, 5].foldl scrambleStep s

/-- One iteration of the loop of `randid.Decode`:
`dst[i*2] = dst[i*2] ^ dst[9]` then `dst[i*2], dst[6+i] = dst[6+i], dst[i*2]`. -/
def unscrambleStep (s : List Nat) (i : Nat) : List Nat :=
  let s := s.set (i * 2) (byteAt s (i * 2) ^^^ byteAt s 9)
  (s.set (i * 2) (byteAt s (6 + i))).set (6 + i) (byteAt s (i * 2))

/-- The loop of `randid.Decode`: `for i := 5; 0 <= i; i--`. -/
def decodeScramble (s : List Nat) : List Nat :=
  [5, 4, 3, 2, 1, 0].foldl unscrambleStep s

/-- Alphabet of Go's `base64.URLEncoding`. -/
def b64Alphabet : List Char :=
  String.toList "ABCDEFGHIJKLMNOPQRSTUVWXYZabcdefghijklmnopqrstuvwxyz0123456789-_"

/-- Character encoding one six-bit group. -/
def b64char (n : Nat) : Char := b64Alphabet.getD n (Char.ofNat 65)

/-- Six-bit group of one character (`none` for a byte outside the
alphabet, which `base64.URLEncoding.Decode` reports as an error). -/
def b64index (c : Char) : Option Nat := b64Alphabet.findIdx? (fun x => x == c)

/-- Three bytes as four six-bit groups (big-endian 24-bit group, as base64
emits them). -/
def bytesToSextets (a b c : Nat) : List Nat :=
  [a / 4, a % 4 * 16 + b / 16, b % 16 * 4 + c / 64, c % 64]

/-- Four six-bit groups back to three bytes. -/
def sextetsToBytes (w x y z : Nat) : List Nat :=
  [w * 4 + x / 16, x % 16 * 16 + y / 4, y % 4 * 64 + z]

/-- `base64.URLEncoding.Encode` on input whose length is a multiple of
three (the source encodes exactly 12 bytes, so no padding arises). -/
def b64encode : List Nat → List Char
  | [] => []
  | [_] => []
  | [_, _] => []
  | a :: b :: c :: rest => (bytesToSextets a b c).map b64char ++ b64encode rest

/-- `base64.URLEncoding.Decode`; `none` models the error return. -/
def b64decode : List Char → Option (List Nat)
  | [] => some []
  | w :: x :: y :: z :: rest =>
      match b64index w, b64index x, b64index y, b64index z, b64decode rest with
      | some w, some x, some y, some z, some bytes =>
          some (sextetsToBytes w x y z ++ bytes)
      | _, _, _, _, _ => none
  | _ => none

/-- Little-endian byte `i` of `n` (Go `binary.LittleEndian`). -/
def leByte (n i : Nat) : Nat := n / 256 ^ i % 256

/-- The 12-byte plaintext assembled by `randid.New` before the loop:
`copy(src[:6], marker)`, and `binary.LittleEndian.PutUint32(dst, ts)`
followed by `binary.LittleEndian.PutUint32(dst[3:], seqv)` leaves
`dst[:6] = [ts0, ts1, ts2, seq0, seq1, seq2]`, which `copy(src[6:], dst)`
appends. -/
def newPlain (m : List Nat) (ts seqv : Nat) : List Nat :=
  m ++ [leByte ts 0, leByte ts 1, leByte ts 2, leByte seqv 0, leByte seqv 1, leByte seqv 2]

/-- `randid.New` with marker `m`, encode-time Unix seconds `ts` and
post-increment sequence value `seqv`: the 16-character id. -/
def ridNew (m : List Nat) (ts seqv : Nat) : List Char :=
  b64encode (encodeScramble (newPlain m ts seqv))

/-- `randid.Decode` at decode-time Unix seconds `now`: `none` models the
`nil, time.Time{}` return on a length or base64 failure; otherwise the
result is `dst[2:6]` (the IP bytes) and the reassembled Unix seconds
`uint32(LittleEndian(dst[6:10])) | (uint64(now) & 0xFF000000)` computed
after `dst[9] = 0`. -/
def ridDecode (id : List Char) (now : Nat) : Option (List Nat × Nat) :=
  if id.length ≠ 16 then none
  else
    (b64decode id).map fun buf =>
      let dst := (decodeScramble buf).set 9 0
      let timestamp :=
        byteAt dst 6 + byteAt dst 7 * 256 + byteAt dst 8 * 65536 + byteAt dst 9 * 16777216
      ((dst.drop 2).take 4, timestamp ||| (now &&& 4278190080))

end GoBase

namespace GoBase

/-! ## Theorems -/

/-- C1: for every task of every trigger type, once `Stop()` has returned,
`Died()` returns true; and `Stop()` is idempotent: a second call returns no
error and does not run the behavior's retire a second time.  The hypothesis
is the (source-maintained) invariant that a consumed `onceStop` implies the
life context was cancelled. -/
theorem stop_died_and_idempotent (t : TaskState)
    (hinv : t.onceStopUsed = true → t.lifeCancelled = true) :
    (t.stop.1.died = true) ∧
    ((t.stop.1.stop).2 = none) ∧
    ((t.stop.1.stop).1.retireCalls = t.stop.1.retireCalls) := by
  by_cases h : t.onceStopUsed
  · simp [TaskState.stop, h, TaskState.died, hinv h]
  · simp only [TaskState.stop, TaskState.stopBody, h]
    by_cases hr : t.routineRunning <;>
      by_cases hl : t.taskType = TaskType.onInterval && t.liverTracked <;>
        simp [hr, hl, TaskState.died]

/-- Witness for C1 at a concrete fresh interval task. -/
theorem stop_died_and_idempotent_witness :
    ((⟨TaskType.onInterval, false, false, false, true, 0, true, true, true, true⟩ :
        TaskState).stop.1.died = true) ∧
    (((⟨TaskType.onInterval, false, false, false, true, 0, true, true, true, true⟩ :
        TaskState).stop.1.stop).2 = none) ∧
    (((⟨TaskType.onInterval, false, false, false, true, 0, true, true, true, true⟩ :
        TaskState).stop.1.stop).1.retireCalls
      = (⟨TaskType.onInterval, false, false, false, true, 0, true, true, true, true⟩ :
        TaskState).stop.1.retireCalls) :=
  stop_died_and_idempotent _ (by decide)

/-- C7: in each loop iteration of an interval task, the sleeping branch
derives an indefinitely-cancellable nap context and removes the task from
the liveness registry; the active branch derives a nap context that expires
after the configured duration and, when liveness-tracking is enabled,
re-registers the task with a deadline of four times its interval. -/
theorem interval_iter_setup_spec (liverTracked : Bool) (d : Nat) :
    (intervalIterSetup true liverTracked d = (NapCtx.cancellable, LiverAct.cancel)) ∧
    (intervalIterSetup false true d = (NapCtx.withTimeout d, LiverAct.register (d * 4))) ∧
    (intervalIterSetup false false d = (NapCtx.withTimeout d, LiverAct.noop)) := by
  refine ⟨rfl, rfl, rfl⟩

/-- C8: the watchdog scan takes the fatal path exactly when some entry's
elapsed time since its last touch exceeds its timeout; `Register` resets
the entry's last-touch time to the registration moment; on a registry with
a single registered key, the scan is fatal exactly once the elapsed time
exceeds the timeout, and cancelling the key beforehand prevents the fatal
path. -/
theorem liver_scan_spec (data : List (String × Live)) (key : String)
    (tmo r now : Int) :
    ((liverScan data now).isSome = true ↔ ∃ kv ∈ data, liverExpired now kv.2 = true) ∧
    (List.lookup key (liverRegister data key tmo r) = some { last := r, timeout := tmo }) ∧
    ((liverScan (liverRegister [] key tmo r) now).isSome = decide (tmo < now - r)) ∧
    (liverScan (liverCancel (liverRegister [] key tmo r) key) now = none) := by
  refine ⟨?_, ?_, ?_, ?_⟩
  · simp [liverScan, List.find?_isSome]
  · simp [liverRegister, List.lookup]
  · simp only [liverRegister, liverScan, List.filter_nil, List.find?]
    by_cases h : tmo < now - r <;> simp [liverExpired, h]
  · simp [liverRegister, liverCancel, liverScan]

/-- C2 counterexample: for a TCP task, the steps of `Task.stop` are not the
order stated by the claim — the listener close is deferred, so it runs
after the retire wait, whereas the claim places the teardown before the
blocking wait. -/
theorem stop_trace_ne_claimed :
    stopTrace TaskType.onTCP false false ≠ stopTraceClaimed TaskType.onTCP false false := by
  decide

/-- C2 as amended: `Task.stop` deregisters the retire and reload callbacks
first, then opens the retire-wait context and cancels the lifetime context,
then blocks until the loop goroutine's retire call completes or the
3-second bound expires; the type-specific teardown is deferred and runs
after that wait, as `stop` returns; and expiry of the bound is surfaced as
a timeout error to the caller rather than `nil`. -/
theorem stop_trace_spec (tt : TaskType) (liverTracked timedOut : Bool) :
    ((stopTrace tt liverTracked timedOut).take 4
      = [StopEvent.retireCancel, StopEvent.reloadCancel, StopEvent.openRetireCtx,
          StopEvent.cancelLife]) ∧
    ((stopTrace tt liverTracked timedOut).get? 4 = some (StopEvent.retireWait timedOut)) ∧
    (((stopTrace tt liverTracked timedOut).drop 5).all StopEvent.isTeardown = true) ∧
    (stopReturn true = some Err.stopTimeout) ∧
    (stopReturn false = none) := by
  cases tt <;> cases liverTracked <;> cases timedOut <;> decide

/-- C4: a manual task with the immediate flag runs `Schedule` exactly once,
synchronously, at construction (returning its error) and spawns no loop
goroutine, so `Schedule` does not run again until `Fire()`; `Fire()` on a
live manual task invokes `Schedule` synchronously, returning its error;
`Fire()` on a died task returns an error without invoking `Schedule`. -/
theorem manual_task_spec (e e2 : Option Err) (t : ManualTask)
    (hdied : t.lifeCancelled = true) :
    ((manualStart true e).1.scheduleCalls = 1) ∧
    ((manualStart true e).2 = e) ∧
    ((manualStart true e).1.routineRunning = false) ∧
    ((manualStart false e).1.scheduleCalls = 0) ∧
    ((manualFire (manualStart true e).1 e2).1.scheduleCalls = 2) ∧
    ((manualFire (manualStart true e).1 e2).2 = e2) ∧
    ((manualFire t e2).2 = some Err.fireDied) ∧
    ((manualFire t e2).1.scheduleCalls = t.scheduleCalls) := by
  refine ⟨rfl, rfl, rfl, rfl, rfl, rfl, ?_, ?_⟩ <;> simp [manualFire, hdied]

/-- Witness for C4 at concrete inputs. -/
theorem manual_task_spec_witness :
    ((manualStart true none).1.scheduleCalls = 1) ∧
    ((manualStart true none).2 = none) ∧
    ((manualStart true none).1.routineRunning = false) ∧
    ((manualStart false none).1.scheduleCalls = 0) ∧
    ((manualFire (manualStart true none).1 (some (Err.taskerErr 7))).1.scheduleCalls = 2) ∧
    ((manualFire (manualStart true none).1 (some (Err.taskerErr 7))).2
      = some (Err.taskerErr 7)) ∧
    ((manualFire ⟨true, 5, false⟩ (some (Err.taskerErr 7))).2 = some Err.fireDied) ∧
    ((manualFire ⟨true, 5, false⟩ (some (Err.taskerErr 7))).1.scheduleCalls
      = (⟨true, 5, false⟩ : ManualTask).scheduleCalls) :=
  manual_task_spec none (some (Err.taskerErr 7)) ⟨true, 5, false⟩ rfl

/-- C5: for every constructor (every trigger type and flag combination),
the behavior's `Reload` runs exactly once, as the first step, before any
step of `Task.start` (so before the task is considered started); and a
construction-time reload error is fatal — the trace ends at the abort and
no start step (no schedule, no resource acquisition, no loop spawn, no
registration) ever happens. -/
theorem new_task_reload_spec (tt : TaskType) (immediately sleep resourceOk : Bool) :
    ((newTaskTrace tt immediately sleep resourceOk false).head?
      = some ConsEvent.reloadCall) ∧
    ((newTaskTrace tt immediately sleep resourceOk false).count ConsEvent.reloadCall = 1) ∧
    (newTaskTrace tt immediately sleep resourceOk true
      = [ConsEvent.reloadCall, ConsEvent.fatalAbort]) := by
  cases tt <;> cases immediately <;> cases sleep <;> cases resourceOk <;> decide

/-- C6: a global reload/retire batch launches every registered callback; a
callback error is logged as a warning and neither aborts nor fails the
batch (the abort happens exactly when some callback outlives the shared
timeout, never because of a returned error); on that abort the completion
status of every callback is logged; the shared timeout is 10 seconds; and,
as the spec's test instance states, a batch of three callbacks of which one
errors and two succeed does not take the abort path and launches all
three. -/
theorem group_run_spec (fns : List (String × CbOutcome)) :
    ((globalReloadBatch fns).launched = fns.map Prod.fst) ∧
    ((globalReloadBatch fns).warned
      = (fns.filter (fun kv => kv.2 == CbOutcome.fails)).map Prod.fst) ∧
    ((globalReloadBatch fns).hung = fns.any (fun kv => kv.2 == CbOutcome.hangs)) ∧
    ((globalReloadBatch fns).statuses = fns.map (fun kv => (kv.1, kv.2.finishes))) ∧
    (globalBatchTimeoutSeconds = 10) ∧
    ((globalReloadBatch [("a", CbOutcome.fails), ("b", CbOutcome.ok), ("c", CbOutcome.ok)]).hung
      = false) ∧
    ((globalReloadBatch [("a", CbOutcome.fails), ("b", CbOutcome.ok), ("c", CbOutcome.ok)]).launched
      = ["a", "b", "c"]) := by
  exact ⟨rfl, rfl, rfl, rfl, rfl, rfl, rfl⟩

/-- Helper: running a channel task whose channel holds `vals` and is then
closed takes `vals.length + 1` iterations: each value yields one `Schedule`
call with that value, and the closure cancels life, runs `Retire` once, and
exits the loop, invoking `t.retired` (nil unless `Stop` assigned it). -/
theorem chanRun_closed {α : Type} (vals : List α) (s : ChanRun α)
    (hex : s.exited = false) (hp : s.pending = vals) (hc : s.chanClosed = true) :
    ((chanRun s (vals.length + 1)).schedArgs = s.schedArgs ++ vals) ∧
    ((chanRun s (vals.length + 1)).lifeCancelled = true) ∧
    ((chanRun s (vals.length + 1)).retireCalls = s.retireCalls + 1) ∧
    ((chanRun s (vals.length + 1)).exited = true) ∧
    ((chanRun s (vals.length + 1)).nilCallFault = !s.retiredAssigned) := by
  induction vals generalizing s with
  | nil =>
      simp only [List.length_nil, Nat.zero_add, chanRun, chanStep, hex, hp, hc]
      simp
  | cons v rest ih =>
      have hstep : chanStep s = { s with pending := rest, argument := some v, schedArgs := s.schedArgs ++ [v] } := by
        simp [chanStep, hex, hp]
      have hnext := ih { s with pending := rest, argument := some v, schedArgs := s.schedArgs ++ [v] } hex rfl hc
      simpa [chanRun, hstep, List.append_assoc] using hnext

/-- Helper: while the channel is open, no iteration cancels the life
context — a channel-driven task's lifetime does not end without closure. -/
theorem chanRun_open {α : Type} (n : Nat) (s : ChanRun α)
    (hc : s.chanClosed = false) (hl : s.lifeCancelled = false) :
    (chanRun s n).lifeCancelled = false := by
  induction n generalizing s with
  | zero => exact hl
  | succ n ih =>
      show (chanRun (chanStep s) n).lifeCancelled = false
      by_cases hex : s.exited
      · have hid : chanStep s = s := by simp [chanStep, hex]
        rw [hid]; exact ih s hc hl
      · cases hp : s.pending with
        | cons v rest =>
            have hstep : chanStep s = { s with pending := rest, argument := some v, schedArgs := s.schedArgs ++ [v] } := by
              simp [chanStep, hex, hp]
            rw [hstep]; exact ih _ hc hl
        | nil =>
            have hstep : chanStep s = s := by
              simp [chanStep, hex, hp, hc]
            rw [hstep]; exact ih s hc hl

/-- C3: a channel-driven task that receives `K` values and whose channel is
then closed runs `Schedule` exactly `K` times, the `i`-th call's argument
being the `i`-th delivered value in delivery order, and its lifetime ends
(with `Retire` run once and the loop exited); while the channel is open and
undelivered, no number of iterations ends the lifetime — the lifetime ends
iff the channel closes. -/
theorem channel_task_spec {α : Type} (vals : List α) :
    ((chanRun (chanInit vals true) (vals.length + 1)).schedArgs = vals) ∧
    ((chanRun (chanInit vals true) (vals.length + 1)).lifeCancelled = true) ∧
    ((chanRun (chanInit vals true) (vals.length + 1)).retireCalls = 1) ∧
    ((chanRun (chanInit vals true) (vals.length + 1)).exited = true) ∧
    (∀ n : Nat, (chanRun (chanInit vals false) n).lifeCancelled = false) := by
  have h := chanRun_closed vals (chanInit vals true) rfl rfl rfl
  refine ⟨?_, h.2.1, h.2.2.1, h.2.2.2.1, ?_⟩
  · simpa [chanInit] using h.1
  · intro n; exact chanRun_open n _ rfl rfl

/-- C9: the claim fails on the code.  `t.retired` is assigned only inside
`Task.stop`; when a channel-driven task's trigger channel is closed without
`Stop()` ever being called, the receive helper calls `t.die()`, the loop's
life-done branch runs `Retire` and then invokes `t.retired` — a nil
function value, so the invocation faults (Go panics on calling a nil
function).  Had `Stop` run first (assigning `t.retired`), the same branch
would not fault. -/
theorem channel_close_nil_retired_fault :
    ((chanInit ([] : List Nat) true).retiredAssigned = false) ∧
    ((chanRun (chanInit ([] : List Nat) true) 1).lifeCancelled = true) ∧
    ((chanRun (chanInit ([] : List Nat) true) 1).nilCallFault = true) ∧
    ((chanRun { chanInit ([] : List Nat) true with retiredAssigned := true } 1).nilCallFault
      = false) := by
  decide

/-- Helper: the decode loop inverts the encode loop at all twelve
positions of the buffer (in particular everywhere other than byte 9). -/
theorem decodeScramble_encodeScramble
    (a0 a1 a2 a3 a4 a5 a6 a7 a8 a9 a10 a11 : Nat) :
    decodeScramble (encodeScramble [a0, a1, a2, a3, a4, a5, a6, a7, a8, a9, a10, a11])
      = [a0, a1, a2, a3, a4, a5, a6, a7, a8, a9, a10, a11] := by
  simp [encodeScramble, decodeScramble, scrambleStep, unscrambleStep, byteAt,
    Nat.xor_cancel_right]

/-- Helper: the base64 alphabet decodes its own characters. -/
theorem b64index_b64char : ∀ n : Nat, n < 64 → b64index (b64char n) = some n := by
  decide

/-- Helper: one three-byte group survives the encode/decode round trip. -/
theorem b64decode_group (a b c : Nat) (cs : List Char)
    (ha : a < 256) (hb : b < 256) (hc : c < 256) :
    b64decode ((bytesToSextets a b c).map b64char ++ cs)
      = (b64decode cs).map (fun bytes => a :: b :: c :: bytes) := by
  have e0 := b64index_b64char (a / 4) (by omega)
  have e1 := b64index_b64char (a % 4 * 16 + b / 16) (by omega)
  have e2 := b64index_b64char (b % 16 * 4 + c / 64) (by omega)
  have e3 := b64index_b64char (c % 64) (by omega)
  have hbytes : sextetsToBytes (a / 4) (a % 4 * 16 + b / 16) (b % 16 * 4 + c / 64) (c % 64)
      = [a, b, c] := by
    simp only [sextetsToBytes, List.cons.injEq, and_true]
    refine ⟨by omega, by omega, by omega⟩
  have hshape : (bytesToSextets a b c).map b64char ++ cs
      = b64char (a / 4) :: b64char (a % 4 * 16 + b / 16) :: b64char (b % 16 * 4 + c / 64)
          :: b64char (c % 64) :: cs := by
    simp [bytesToSextets]
  rw [hshape]
  rcases hcs : b64decode cs with _ | bytes <;>
    simp [b64decode, e0, e1, e2, e3, hbytes, hcs]

/-- Helper: decode inverts encode on byte lists of length divisible by
three whose entries are bytes. -/
theorem b64decode_b64encode : ∀ (s : List Nat), (∀ x ∈ s, x < 256) →
    s.length % 3 = 0 → b64decode (b64encode s) = some s
  | [], _, _ => rfl
  | [_], _, hl => by simp at hl
  | [_, _], _, hl => by simp at hl
  | a :: b :: c :: rest, hb, hl => by
      have hrest : ∀ x ∈ rest, x < 256 := fun x hx => hb x (by simp [hx])
      have hlen : rest.length % 3 = 0 := by
        simp only [List.length_cons] at hl
        omega
      have ih := b64decode_b64encode rest hrest hlen
      have ha := hb a (by simp)
      have hbb := hb b (by simp)
      have hc := hb c (by simp)
      rw [show b64encode (a :: b :: c :: rest)
            = (bytesToSextets a b c).map b64char ++ b64encode rest from rfl]
      rw [b64decode_group a b c _ ha hbb hc, ih]
      rfl

/-- Helper: encoding turns three bytes into four characters. -/
theorem b64encode_length : ∀ (s : List Nat), (b64encode s).length = s.length / 3 * 4
  | [] => rfl
  | [_] => by simp [b64encode]
  | [_, _] => by simp [b64encode]
  | a :: b :: c :: rest => by
      have ih := b64encode_length rest
      simp only [show b64encode (a :: b :: c :: rest)
          = (bytesToSextets a b c).map b64char ++ b64encode rest from rfl,
        List.length_append, List.length_map, bytesToSextets, List.length_cons,
        List.length_nil, ih]
      omega

/-- Helper: a byte read is a byte. -/
theorem byteAt_lt : ∀ (s : List Nat), (∀ x ∈ s, x < 256) → ∀ i, byteAt s i < 256
  | [], _, i => by simp [byteAt]
  | a :: t, h, 0 => by simpa [byteAt] using h a (by simp)
  | _ :: t, h, i + 1 => by
      have ht := byteAt_lt t (fun x hx => h x (by simp [hx])) i
      simpa [byteAt] using ht

/-- Helper: writing a byte keeps all entries bytes. -/
theorem mem_set_lt (s : List Nat) (i v : Nat) (h : ∀ x ∈ s, x < 256) (hv : v < 256) :
    ∀ x ∈ s.set i v, x < 256 := by
  intro x hx
  rcases List.mem_or_eq_of_mem_set hx with hmem | rfl
  · exact h x hmem
  · exact hv

/-- Helper: one scramble step keeps all entries bytes. -/
theorem scrambleStep_lt (s : List Nat) (i : Nat) (h : ∀ x ∈ s, x < 256) :
    ∀ x ∈ scrambleStep s i, x < 256 := by
  have hswap : ∀ x ∈ (s.set (i * 2) (byteAt s (6 + i))).set (6 + i) (byteAt s (i * 2)),
      x < 256 :=
    mem_set_lt _ _ _ (mem_set_lt _ _ _ h (byteAt_lt s h (6 + i))) (byteAt_lt s h (i * 2))
  have hxor : byteAt ((s.set (i * 2) (byteAt s (6 + i))).set (6 + i) (byteAt s (i * 2))) (i * 2)
      ^^^ byteAt ((s.set (i * 2) (byteAt s (6 + i))).set (6 + i) (byteAt s (i * 2))) 9 < 256 := by
    have hpow : (256 : Nat) = 2 ^ 8 := by norm_num
    rw [hpow]
    exact Nat.xor_lt_two_pow (byteAt_lt _ hswap _ |>.trans_eq hpow)
      (byteAt_lt _ hswap _ |>.trans_eq hpow)
  exact mem_set_lt _ _ _ hswap hxor

/-- Helper: the encode loop keeps all entries bytes. -/
theorem encodeScramble_lt (s : List Nat) (h : ∀ x ∈ s, x < 256) :
    ∀ x ∈ encodeScramble s, x < 256 := by
  simp only [encodeScramble, List.foldl_cons, List.foldl_nil]
  exact scrambleStep_lt _ _ (scrambleStep_lt _ _ (scrambleStep_lt _ _ (scrambleStep_lt _ _
    (scrambleStep_lt _ _ (scrambleStep_lt _ _ h)))))

/-- Helper: a little-endian byte is a byte. -/
theorem leByte_lt (n i : Nat) : leByte n i < 256 :=
  Nat.mod_lt _ (by norm_num)

/-- Helper: the scramble loops preserve buffer length. -/
theorem encodeScramble_length (s : List Nat) : (encodeScramble s).length = s.length := by
  simp [encodeScramble, scrambleStep]

/-- Helper: the assembled plaintext consists of bytes. -/
theorem newPlain_lt (m : List Nat) (hm : ∀ x ∈ m, x < 256) (ts seqv : Nat) :
    ∀ x ∈ newPlain m ts seqv, x < 256 := by
  intro x hx
  rcases List.mem_append.mp hx with hmem | hmem
  · exact hm x hmem
  · simp only [List.mem_cons, List.not_mem_nil, or_false] at hmem
    rcases hmem with rfl | rfl | rfl | rfl | rfl | rfl <;> exact leByte_lt _ _

/-- C10: `Decode` is a left inverse of `New` up to the documented
truncations.  For every 6-byte marker, decoding the 16-character id yields
the IP equal to marker bytes 2 through 5 and a Unix-seconds value agreeing
with the encoding-time seconds in the low 24 bits with bits 24–31 taken
from the decode-time clock; plain byte 9 (the low sequence byte) is zeroed
by `Decode` and not recovered, the loops themselves being exact inverses on
the 12-byte plaintext. -/
theorem rid_decode_new (m0 m1 m2 m3 m4 m5 ts seqv now : Nat)
    (h0 : m0 < 256) (h1 : m1 < 256) (h2 : m2 < 256)
    (h3 : m3 < 256) (h4 : m4 < 256) (h5 : m5 < 256) :
    ridDecode (ridNew [m0, m1, m2, m3, m4, m5] ts seqv) now
      = some ([m2, m3, m4, m5], ts % 16777216 ||| (now &&& 4278190080)) := by
  have hm : ∀ x ∈ [m0, m1, m2, m3, m4, m5], x < 256 := by
    intro x hx
    simp only [List.mem_cons, List.not_mem_nil, or_false] at hx
    rcases hx with rfl | rfl | rfl | rfl | rfl | rfl <;> assumption
  have hPlt : ∀ x ∈ newPlain [m0, m1, m2, m3, m4, m5] ts seqv, x < 256 :=
    newPlain_lt _ hm ts seqv
  have hElt := encodeScramble_lt _ hPlt
  have hPlen : (newPlain [m0, m1, m2, m3, m4, m5] ts seqv).length = 12 := by
    simp [newPlain]
  have hElen : (encodeScramble (newPlain [m0, m1, m2, m3, m4, m5] ts seqv)).length = 12 := by
    rw [encodeScramble_length, hPlen]
  have hIdLen : (b64encode (encodeScramble (newPlain [m0, m1, m2, m3, m4, m5] ts seqv))).length
      = 16 := by
    rw [b64encode_length, hElen]
  have hrt : b64decode (b64encode (encodeScramble (newPlain [m0, m1, m2, m3, m4, m5] ts seqv)))
      = some (encodeScramble (newPlain [m0, m1, m2, m3, m4, m5] ts seqv)) :=
    b64decode_b64encode _ hElt (by rw [hElen])
  have hscr : decodeScramble (encodeScramble (newPlain [m0, m1, m2, m3, m4, m5] ts seqv))
      = newPlain [m0, m1, m2, m3, m4, m5] ts seqv := by
    rw [show newPlain [m0, m1, m2, m3, m4, m5] ts seqv
        = [m0, m1, m2, m3, m4, m5, leByte ts 0, leByte ts 1, leByte ts 2,
            leByte seqv 0, leByte seqv 1, leByte seqv 2] from rfl]
    exact decodeScramble_encodeScramble m0 m1 m2 m3 m4 m5 (leByte ts 0) (leByte ts 1)
      (leByte ts 2) (leByte seqv 0) (leByte seqv 1) (leByte seqv 2)
  have hts : leByte ts 0 + leByte ts 1 * 256 + leByte ts 2 * 65536 + 0 * 16777216
      = ts % 16777216 := by
    simp only [leByte, pow_zero, pow_one, Nat.div_one]
    have h65536 : (256 : Nat) ^ 2 = 65536 := by norm_num
    rw [h65536]
    omega
  simp only [ridDecode, ridNew]
  rw [hIdLen, if_neg (fun h => h rfl), hrt, Option.map_some']
  simp only [hscr]
  rw [show newPlain [m0, m1, m2, m3, m4, m5] ts seqv
      = [m0, m1, m2, m3, m4, m5, leByte ts 0, leByte ts 1, leByte ts 2,
          leByte seqv 0, leByte seqv 1, leByte seqv 2] from rfl]
  rw [show ([m0, m1, m2, m3, m4, m5, leByte ts 0, leByte ts 1, leByte ts 2,
      leByte seqv 0, leByte seqv 1, leByte seqv 2].set 9 0)
      = [m0, m1, m2, m3, m4, m5, leByte ts 0, leByte ts 1, leByte ts 2, 0,
          leByte seqv 1, leByte seqv 2] from rfl]
  simp only [byteAt, List.getD_cons_succ, List.getD_cons_zero, List.drop_succ_cons,
    List.drop_zero, List.take_succ_cons, List.take_zero]
  rw [hts]

/-- Witness for C10 at a concrete marker, timestamp, sequence value and
decode-time clock. -/
theorem rid_decode_new_witness :
    ridDecode (ridNew [1, 2, 3, 4, 5, 6] 1234567 89) 4036000000
      = some ([3, 4, 5, 6], 1234567 % 16777216 ||| (4036000000 &&& 4278190080)) :=
  rid_decode_new 1 2 3 4 5 6 1234567 89 4036000000 (by norm_num) (by norm_num)
    (by norm_num) (by norm_num) (by norm_num) (by norm_num)

end GoBase
